import Mathlib

/-!
# Verification of the openbazaar-go (Phore) wallet, migration, exchange-rate
# and service code

Shallow embedding of the Go sources:

* `src/bitcoin/exchange/bitcoinprices.go` — the `CMCDecoder.decode`
  exchange-rate decoder;
* `src/unnamed/part_000` — `migrations.migration005` (`Up`/`Down`);
* `src/.history/bitcoin/phored/wallet_20171222232909.go` — the
  `BitcoindWallet` operations `GetFeePerByte`, `EstimateSpendFee`, `BumpFee`,
  `GenerateMultisigScript`, `Multisign`, `SweepAddress`;
* `src/unnamed/part_001` — `OpenBazaarService.handleNewMessage`.

Go machine integers are modelled as `Nat`/`Int` (with explicit wrapping where
it matters), Go `float64` values coming out of JSON as exact rationals `ℚ`
(the claims settled here only compare values produced by the same exact
decimal parse, so float rounding is immaterial to them), fallible Go code as
`Except`/`Option`, and a Go runtime panic as `Option.none`.
-/

namespace OBGo

/-! ## Common helpers -/

/-- Go's conversion of a non-negative or negative real quantity to an integer
type truncates toward zero.  `truncQ` is truncation-toward-zero on `ℚ`. -/
def truncQ (q : ℚ) : Int :=
  if 0 ≤ q then ⌊q⌋ else -⌊-q⌋

/-! ## `CMCDecoder.decode` (src/bitcoin/exchange/bitcoinprices.go, lines 130-160)

The decoder receives the result of `json.Decoder.Decode` into an
`interface{}`: a dynamically typed JSON value.  `GoJson` is that value space
(Go decodes JSON numbers into `float64`; we carry them as exact rationals,
see the file comment). -/

inductive GoJson where
  | null : GoJson
  | boolean : Bool → GoJson
  | num : ℚ → GoJson
  | str : String → GoJson
  | arr : List GoJson → GoJson
  | obj : List (String × GoJson) → GoJson

/-- Lookup in a Go `map[string]interface{}` decoded from JSON (keys are
unique, first match). -/
def mapLookup {α : Type} (m : List (String × α)) (k : String) : Option α :=
  match m with
  | [] => none
  | (k', v) :: rest => if k' = k then some v else mapLookup rest k

/-- The in-memory exchange-rate cache `map[string]float64`. -/
def Cache : Type := List (String × ℚ)

instance : DecidableEq Cache := by
  unfold Cache
  infer_instance

/-- Go `m[k] = v` on `map[string]float64`: replace the binding if present,
else add it. -/
def cacheInsert (c : Cache) (k : String) (v : ℚ) : Cache :=
  match c with
  | [] => [(k, v)]
  | (k', v') :: rest =>
    if k' = k then (k, v) :: rest else (k', v') :: cacheInsert rest k v

/-- Lookup in the cache. -/
def cacheLookup (c : Cache) (k : String) : Option ℚ :=
  mapLookup c k

/-- One decimal digit. -/
def digitVal (c : Char) : Option Nat :=
  if c.isDigit then some (c.toNat - '0'.toNat) else none

/-- Parse an unsigned run of decimal digits into `(value, number of digits)`. -/
def parseDigits : List Char → Option (Nat × Nat)
  | [] => none
  | cs => go cs 0 0
where
  go : List Char → Nat → Nat → Option (Nat × Nat)
    | [], acc, n => if n = 0 then none else some (acc, n)
    | c :: cs, acc, n =>
      match digitVal c with
      | some d => go cs (acc * 10 + d) (n + 1)
      | none => none

/-- `strconv.ParseFloat(s, 64)` restricted to plain decimal notation
`[+|-]digits[.digits]`, returning the exact rational value.  (Go also accepts
exponents, hex floats, `Inf` and `NaN`; none occur in this code base's
payloads, and a string outside this grammar makes Go's and this model's parse
both fail.)  Float64 rounding of the exact decimal value is not modelled: the
claims compare values arising from the same parse. -/
def goParseFloat (s : String) : Option ℚ :=
  let cs := s.toList
  let (neg, cs) :=
    match cs with
    | '-' :: rest => (true, rest)
    | '+' :: rest => (false, rest)
    | _ => (false, cs)
  let (intPart, fracPart) := splitDot cs []
  match intPart, fracPart with
  | [], none => none
  | ip, none => do
    let (v, _) ← parseDigits ip
    pure (signed neg (v : ℚ))
  | ip, some fp =>
    match ip, fp with
    | [], [] => none
    | [], fp => do
      let (fv, fn) ← parseDigits fp
      pure (signed neg ((fv : ℚ) / ((10 : ℚ) ^ fn)))
    | ip, [] => do
      let (v, _) ← parseDigits ip
      pure (signed neg (v : ℚ))
    | ip, fp => do
      let (v, _) ← parseDigits ip
      let (fv, fn) ← parseDigits fp
      pure (signed neg ((v : ℚ) + (fv : ℚ) / ((10 : ℚ) ^ fn)))
where
  splitDot : List Char → List Char → List Char × Option (List Char)
    | [], acc => (acc.reverse, none)
    | '.' :: rest, acc => (acc.reverse, some rest)
    | c :: rest, acc => splitDot rest (c :: acc)
  signed (neg : Bool) (q : ℚ) : ℚ := if neg then -q else q

/-- `CMCDecoder.decode(dat, cache)` (bitcoinprices.go lines 130-160).

The two unchecked type assertions `dat.([]interface{})` and
`data[0].(map[string]interface{})` panic when the dynamic type does not
match; a panic is `none`.  The Go code mutates the caller's map in place, so
the result pairs the returned error value with the cache's final state:
`some (.error e, c)` is `return errors.New(e)` with the cache in state `c`,
`some (.ok (), c)` a normal return. -/
def CMCDecoder.decode (dat : GoJson) (cache : Cache) :
    Option (Except String Unit × Cache) :=
  match dat with
  | GoJson.arr data =>
    if data.length < 1 then
      some (Except.error "could not get currency", cache)
    else
      match data.head? with
      | some (GoJson.obj priceInfo) =>
        match mapLookup priceInfo "price_usd" with
        | none => some (Except.error "could not get USD price", cache)
        | some priceUSDObj =>
          match priceUSDObj with
          | GoJson.str priceUSDString =>
            match goParseFloat priceUSDString with
            | none => some (Except.error "usd price is not a number", cache)
            | some priceUSD =>
              some (Except.ok (), cacheInsert cache "PHR" priceUSD)
          | _ => some (Except.error "could not decode current USD price", cache)
      | some _ => none
      | none => none
  | _ => none

/-- The sample CoinMarketCap payload from the repository's own decoder test
(`TestDecodeCMCDecoder` in bitcoinprices.go's test half), decoded to a
`GoJson` value; only the fields the decoder inspects plus surrounding ones. -/
def samplePayload : GoJson :=
  GoJson.arr
    [GoJson.obj
      [("id", GoJson.str "phore"),
       ("name", GoJson.str "Phore"),
       ("symbol", GoJson.str "PHR"),
       ("rank", GoJson.str "377"),
       ("price_usd", GoJson.str "0.542017"),
       ("price_btc", GoJson.str "0.00004258"),
       ("24h_volume_usd", GoJson.str "52747.3"),
       ("market_cap_usd", GoJson.str "5275455.0"),
       ("available_supply", GoJson.str "9733007.0"),
       ("total_supply", GoJson.str "11349574.0"),
       ("max_supply", GoJson.null),
       ("percent_change_1h", GoJson.str "4.49"),
       ("percent_change_24h", GoJson.str "21.59"),
       ("percent_change_7d", GoJson.str "11.32"),
       ("last_updated", GoJson.str "1512583195")]]

/-! ## `migrations.migration005` (src/unnamed/part_000, lines 25-76)

The on-disk repository directory is a finite map file-name → contents
(contents as `String`; every byte written by this migration is ASCII, so
`String.length` is the byte length).  `os.Create` truncates an existing file
to empty (or creates it empty), `ioutil.WriteFile` creates-or-replaces, and
`os.Remove` fails when the file is missing.  `FsEnv` injects the I/O failures
the Go error paths react to. -/

/-- File system state: association list file-name → contents. -/
def Fs : Type := List (String × String)

instance : DecidableEq Fs := by
  unfold Fs
  infer_instance

/-- Write (create or replace) a file. -/
def fsWrite (fs : Fs) (name contents : String) : Fs :=
  match fs with
  | [] => [(name, contents)]
  | (n, c) :: rest =>
    if n = name then (name, contents) :: rest else (n, c) :: fsWrite rest name contents

/-- Read a file's contents, `none` when absent. -/
def fsRead (fs : Fs) (name : String) : Option String :=
  mapLookup fs name

/-- Remove a file (no-op on the map when absent; `os.Remove` additionally
errors in that case, handled at the call site). -/
def fsRemove (fs : Fs) (name : String) : Fs :=
  match fs with
  | [] => []
  | (n, c) :: rest => if n = name then rest else (n, c) :: fsRemove rest name

/-- Which of the migration's I/O operations fail, modelling the `err != nil`
branches of `Up`/`Down` (`true` = the operation fails). -/
structure FsEnv where
  createRepoverFails : Bool
  writeSwarmFails : Bool
  writeVersionFails : Bool
  removeSwarmFails : Bool

/-- All I/O succeeds (the empty-directory scenario). -/
def fsEnvOk : FsEnv :=
  { createRepoverFails := false, writeSwarmFails := false,
    writeVersionFails := false, removeSwarmFails := false }

/-- `swarmKeyData` (part_000 line 39): the fixed preshared-key blob. -/
def swarmKeyData : String :=
  "/key/swarm/psk/1.0.0/\n/base16/\n59468cfd4d4dc2a61395080513e853434d0313495f34be65c18d643d09eafe6f"

/-- `migration005.Up(repoPath, dbPassword, testnet)` (part_000 lines 41-57).
`os.Create("repover")` truncates `repover` to empty immediately; on any
failure the error is returned with the file system in its state at that
point. -/
def migration005Up (env : FsEnv) (fs : Fs) : Except String Fs × Fs :=
  if env.createRepoverFails then (Except.error "create repover failed", fs)
  else
    let fs1 := fsWrite fs "repover" ""
    if env.writeSwarmFails then (Except.error "write swarm.key failed", fs1)
    else
      let fs2 := fsWrite fs1 "swarm.key" swarmKeyData
      if env.writeVersionFails then (Except.error "write repover failed", fs2)
      else
        let fs3 := fsWrite fs2 "repover" "6"
        (Except.ok fs3, fs3)

/-- `migration005.Down(repoPath, dbPassword, testnet)` (part_000 lines 59-75).
`os.Remove("swarm.key")` fails when the file does not exist. -/
def migration005Down (env : FsEnv) (fs : Fs) : Except String Fs × Fs :=
  if env.createRepoverFails then (Except.error "create repover failed", fs)
  else
    let fs1 := fsWrite fs "repover" ""
    if env.removeSwarmFails ∨ fsRead fs1 "swarm.key" = none then
      (Except.error "remove swarm.key failed", fs1)
    else
      let fs2 := fsRemove fs1 "swarm.key"
      let fs3 := fsWrite fs2 "repover" "5"
      (Except.ok fs3, fs3)

/-! ## Fee oracle: `GetFeePerByte` (wallet.go lines 516-542) -/

/-- `wallet.FeeLevel` of the wallet interface: the three named levels plus
`FEE_BUMP` used by `BumpFee`. -/
inductive FeeLevel where
  | PRIORITY
  | NORMAL
  | ECONOMIC
  | FEE_BUMP
  deriving Repr, DecidableEq

/-- Go `strconv.Atoi`: optional sign, at least one decimal digit, nothing
else, value within the 64-bit `int` range. -/
def goAtoi (s : String) : Option Int :=
  let cs := s.toList
  let (neg, cs) :=
    match cs with
    | '-' :: rest => (true, rest)
    | '+' :: rest => (false, rest)
    | _ => (false, cs)
  match parseDigits cs with
  | none => none
  | some (v, _) =>
    let i : Int := if neg then -(v : Int) else (v : Int)
    if i < -(2 ^ 63) ∨ 2 ^ 63 - 1 < i then none else some i

/-- The daemon side of `rpcClient.RawRequest("estimatefee", [nBlocks])`:
maps the block target to the raw response body, `none` for an RPC error.
This is the whole oracle state `GetFeePerByte` can observe. -/
def EstimateFeeState : Type := Nat → Option String

/-- `GetFeePerByte(feeLevel)` (wallet.go lines 516-542).  `PRIORITY`,
`NORMAL`, `ECONOMIC` query `estimatefee` with 1, 3, 6 blocks; every other
level falls into the `default:` case and returns the default fee of 50
immediately.  RPC failure, unparsable response (`strconv.Atoi`), or a
non-positive value also yield 50; otherwise the response is divided by 1000
(integer division). -/
def GetFeePerByte (st : EstimateFeeState) (feeLevel : FeeLevel) : Nat :=
  let defaultFee : Nat := 50
  let nBlocks : Option Nat :=
    match feeLevel with
    | FeeLevel.PRIORITY => some 1
    | FeeLevel.NORMAL => some 3
    | FeeLevel.ECONOMIC => some 6
    | _ => none
  match nBlocks with
  | none => defaultFee
  | some n =>
    match st n with
    | none => defaultFee
    | some resp =>
      match goAtoi resp with
      | none => defaultFee
      | some feePerKb =>
        if feePerKb ≤ 0 then defaultFee
        else ((feePerKb / 1000).toNat)

/-! ## `EstimateSpendFee` input accumulation and `BumpFee`'s UTXO value

`ListUnspent` reports each unspent amount as a `float64` in whole coins
(`u.Amount`, modelled as `ℚ`, see the file comment). -/

/-- `EstimateSpendFee` (wallet.go lines 576-583): the loop that accumulates
`inval += int64(utxo.Amount * 100000000)` over the unspent outputs matched to
the transaction's inputs — it MULTIPLIES the daemon's coin amount by 10^8 to
get base units.  `matchedAmounts` are the `utxo.Amount` values of the matched
outputs, in matching order. -/
def estimateSpendFeeInval (matchedAmounts : List ℚ) : Int :=
  matchedAmounts.foldl (fun acc a => acc + truncQ (a * 100000000)) 0

/-- `BumpFee` (wallet.go line 492): the in-flight UTXO handed to
`SweepAddress` carries `Value: int64(u.Amount / 100000000)` — a DIVISION of
the coin amount by 10^8. -/
def bumpFeeUtxoValue (amount : ℚ) : Int :=
  truncQ (amount / 100000000)

/-! ## Script opcodes and the txscript script builder

Only the opcodes this wallet emits or inspects. -/

def OP_0 : Nat := 0x00
def OP_1NEGATE : Nat := 0x4f
def OP_IF : Nat := 0x63
def OP_ELSE : Nat := 0x67
def OP_ENDIF : Nat := 0x68
def OP_DROP : Nat := 0x75
def OP_CHECKSIG : Nat := 0xac
def OP_CHECKMULTISIG : Nat := 0xae
def OP_CHECKSEQUENCEVERIFY : Nat := 0xb2

/-- Minimal little-endian signed script-number encoding
(txscript.scriptNum.Bytes): magnitude little-endian, a sign byte appended
when the top bit of the last byte is set. -/
def scriptNumBytes (n : Int) : List Nat :=
  if n = 0 then []
  else
    let neg := n < 0
    let mag := n.natAbs
    let bs := leBytes mag
    match bs.getLast? with
    | some last =>
      if 0x80 ≤ last then bs ++ [if neg then 0x80 else 0x00]
      else if neg then bs.dropLast ++ [last + 0x80] else bs
    | none => []
where
  leBytes (m : Nat) : List Nat :=
    if h : m = 0 then [] else m % 256 :: leBytes (m / 256)
  decreasing_by exact Nat.div_lt_self (Nat.pos_of_ne_zero h) (by omega)

/-- `txscript.ScriptBuilder.AddOp`. -/
def addOp (script : List Nat) (op : Nat) : List Nat :=
  script ++ [op]

/-- `txscript.ScriptBuilder.AddData` (canonical-push fast paths for small
integers, then direct pushes; no script in this wallet reaches the
`OP_PUSHDATA*` sizes). -/
def addData (script : List Nat) (data : List Nat) : List Nat :=
  match data with
  | [] => script ++ [OP_0]
  | [b] =>
    if b = 0 then script ++ [OP_0]
    else if b ≤ 16 then script ++ [0x50 + b]
    else if b = 0x81 then script ++ [OP_1NEGATE]
    else script ++ [1, b]
  | _ => script ++ [data.length] ++ data

/-- `txscript.ScriptBuilder.AddInt64`. -/
def addInt64 (script : List Nat) (n : Int) : List Nat :=
  if n = 0 then script ++ [OP_0]
  else if n = -1 ∨ (1 ≤ n ∧ n ≤ 16) then script ++ [(0x50 + n).toNat]
  else addData script (scriptNumBytes n)

/-! ## Transaction types for the multisig engine -/

/-- A caller-supplied public key: its 33-byte compressed serialization
(`ExtendedKey.ECPubKey().SerializeCompressed()`; the elliptic-curve library
is external, so keys are modelled by their serialized form and the
serialization is taken to succeed, as it does for every key this wallet
derives). -/
structure PubKeyC where
  bytes : List Nat
  deriving Repr, DecidableEq

/-- A P2WSH address.  In the Go code this is
`btc.NewAddressWitnessScriptHash(sha256.Sum256(redeemScript), params)`;
`sha256` is external library code, so the address is modelled as the
commitment constructor applied directly to the redeem script (injective, as
the hash is collision-free in practice). -/
structure P2WSHAddr where
  commitScript : List Nat
  deriving Repr, DecidableEq

/-- `GenerateMultisigScript(keys, threshold, timeout, timeoutKey)`
(wallet.go lines 863-926).  `timeoutNs` is the `time.Duration` in
nanoseconds (non-negative; Go durations cap at about 2.56 × 10⁶ hours, so
the `uint32` conversion of `timeout.Hours()` is exact and equals the
whole-hour quotient modelled here).  The guard is
`uint32(timeout.Hours()) > 0 && timeoutKey == nil`; sub-hour timeouts
truncate to zero hours and take the plain-multisig branch. -/
def GenerateMultisigScript (keys : List PubKeyC) (threshold : Int)
    (timeoutNs : Nat) (timeoutKey : Option PubKeyC) :
    Except String (P2WSHAddr × List Nat) :=
  let timeoutHours : Nat := timeoutNs / 3600000000000
  if 0 < timeoutHours ∧ timeoutKey = none then
    Except.error "Timeout key must be non nil when using an escrow timeout"
  else if (keys.length : Int) < threshold then
    let n := keys.length
    Except.error (s!"unable to generate multisig script with {threshold} " ++
      s!"required signatures when there are only {n} public keys available")
  else
    let ecKeys := keys
    let redeemScript :=
      if timeoutHours = 0 then
        let s := addInt64 [] threshold
        let s := ecKeys.foldl (fun acc k => addData acc k.bytes) s
        let s := addInt64 s (ecKeys.length : Int)
        addOp s OP_CHECKMULTISIG
      else
        -- `blockchain.LockTimeToSequence(false, blocks)` is the identity on
        -- a block count; `uint32(timeout.Hours()*6)` truncates the product.
        let sequenceLock : Nat := timeoutNs * 6 / 3600000000000
        let timeoutKeyBytes :=
          match timeoutKey with
          | some k => k.bytes
          | none => []   -- unreachable: the guard above rejected this case
        let s := addOp [] OP_IF
        let s := addInt64 s threshold
        let s := ecKeys.foldl (fun acc k => addData acc k.bytes) s
        let s := addInt64 s (ecKeys.length : Int)
        let s := addOp s OP_CHECKMULTISIG
        let s := addOp s OP_ELSE
        let s := addInt64 s (sequenceLock : Int)
        let s := addOp s OP_CHECKSEQUENCEVERIFY
        let s := addOp s OP_DROP
        let s := addData s timeoutKeyBytes
        let s := addOp s OP_CHECKSIG
        addOp s OP_ENDIF
    Except.ok (⟨redeemScript⟩, redeemScript)

/-! ## spvwallet helpers used by the transaction code (external library)

`spvwallet.LockTimeFromRedeemScript` and `spvwallet.EstimateSerializeSize`
are imported library code, not part of this repository's sources. -/

/-- Modelled from the spec: `spvwallet.LockTimeFromRedeemScript` recovers the
relative-lock sequence value pushed between `OP_ELSE` and
`OP_CHECKSEQUENCEVERIFY` in a time-locked redeem script (§3 and §4.F of the
design: `IF … ELSE <sequence> CSV DROP <timeoutKey> CHECKSIG ENDIF`), and
fails on any script without that shape.  The byte after the first `OP_ELSE`
must begin a small-integer opcode or a 1-4 byte little-endian number push. -/
def LockTimeFromRedeemScript (rs : List Nat) : Except String Nat :=
  match afterFirstElse rs with
  | none => Except.error "not a timelocked redeem script"
  | some rest =>
    match readScriptNumPush rest with
    | none => Except.error "invalid timelock push"
    | some n => Except.ok n
where
  afterFirstElse : List Nat → Option (List Nat)
    | [] => none
    | b :: rest => if b = OP_ELSE then some rest else afterFirstElse rest
  leNum : List Nat → Nat
    | [] => 0
    | b :: rest => b + 256 * leNum rest
  readScriptNumPush (l : List Nat) : Option Nat :=
    match l with
    | [] => none
    | b :: rest =>
      if b = 0 then some 0
      else if 0x51 ≤ b ∧ b ≤ 0x60 then some (b - 0x50)
      else if 1 ≤ b ∧ b ≤ 4 ∧ b ≤ rest.length then some (leNum (rest.take b))
      else none

/-- The spvwallet script-class tags used for size estimation. -/
inductive InputType where
  | P2PKH
  | P2SH_1of2_Multisig
  | P2SH_2of3_Multisig
  | P2SH_Multisig_Timelock_1Sig
  | P2SH_Multisig_Timelock_2Sigs
  deriving Repr, DecidableEq

/-- An output of the wire transaction being built. -/
structure TxOutM where
  value : Int
  scriptPubKey : List Nat
  deriving Repr, DecidableEq

/-- Modelled from the spec: `spvwallet.EstimateSerializeSize` — "a static
table keyed by script class plus number of inputs and outputs" (§4.G).  The
exact per-class constants live in the external library; no claim settled
here depends on their values, only on the estimate being a function of
`(inputs, outputs, class)`. -/
def EstimateSerializeSize (numIns : Nat) (outs : List TxOutM)
    (inputType : InputType) : Nat :=
  10 + numIns * perInputSize inputType +
    (outs.map (fun o => 9 + o.scriptPubKey.length)).sum
where
  perInputSize : InputType → Nat
    | InputType.P2PKH => 148
    | InputType.P2SH_1of2_Multisig => 140
    | InputType.P2SH_2of3_Multisig => 154
    | InputType.P2SH_Multisig_Timelock_1Sig => 144
    | InputType.P2SH_Multisig_Timelock_2Sigs => 158

/-! ## Wire transactions, BIP-69 sorting, `Multisign`, `SweepAddress` -/

/-- A `wire.TxIn`: previous outpoint (hash kept in display byte order, see
`hashFromOutpointBytes`), sequence, legacy signature script, witness stack. -/
structure TxInM where
  prevHash : List Nat
  prevIndex : Nat
  sequence : Nat
  signatureScript : List Nat
  witness : List (List Nat)
  deriving Repr, DecidableEq

/-- A `wire.MsgTx`. -/
structure MsgTxM where
  version : Nat
  txIn : List TxInM
  txOut : List TxOutM
  lockTime : Nat
  deriving Repr, DecidableEq

/-- `wallet.TransactionInput` of the wallet interface. -/
structure TransactionInput where
  outpointHash : List Nat
  outpointIndex : Nat
  value : Int
  deriving Repr, DecidableEq

/-- `wallet.TransactionOutput` of the wallet interface. -/
structure TransactionOutput where
  value : Int
  scriptPubKey : List Nat
  deriving Repr, DecidableEq

/-- `wallet.Signature`: a partial multisig signature tagged with the index of
the transaction input it signs. -/
structure SignatureRec where
  inputIndex : Nat
  signature : List Nat
  deriving Repr, DecidableEq

/-- `chainhash.NewHashFromStr(hex.EncodeToString(in.OutpointHash))`
(wallet.go lines 647-650): fails when the hex string exceeds 64 characters,
i.e. when the byte slice is longer than 32; otherwise zero-pads on the left
to 32 bytes.  `chainhash` stores the hash reversed; we keep display order
and compare display order in the BIP-69 sort below (`txsort` reverses back
to display order before comparing, so the two compositions agree). -/
def hashFromOutpointBytes (b : List Nat) : Option (List Nat) :=
  if b.length ≤ 32 then some (List.replicate (32 - b.length) 0 ++ b) else none

/-- `bytes.Compare` on byte slices. -/
def bytesCmp : List Nat → List Nat → Ordering
  | [], [] => Ordering.eq
  | [], _ :: _ => Ordering.lt
  | _ :: _, [] => Ordering.gt
  | a :: as, b :: bs =>
    if a < b then Ordering.lt else if b < a then Ordering.gt else bytesCmp as bs

/-- BIP-69 input order (txsort): display-order hash lexicographically, then
previous output index. -/
def txInLe (x y : TxInM) : Bool :=
  match bytesCmp x.prevHash y.prevHash with
  | Ordering.lt => true
  | Ordering.gt => false
  | Ordering.eq => x.prevIndex ≤ y.prevIndex

/-- BIP-69 output order (txsort): amount, then script bytes
lexicographically. -/
def txOutLe (x y : TxOutM) : Bool :=
  if x.value < y.value then true
  else if y.value < x.value then false
  else
    match bytesCmp x.scriptPubKey y.scriptPubKey with
    | Ordering.gt => false
    | _ => true

/-- Insert into a `le`-sorted list. -/
def insertLe {α : Type} (le : α → α → Bool) (x : α) : List α → List α
  | [] => [x]
  | y :: ys => if le x y then x :: y :: ys else y :: insertLe le x ys

/-- Insertion sort by a boolean total preorder; models
`txsort.InPlaceSort`'s ordering (elements comparing equal under BIP-69 are
byte-identical records, so stability is immaterial). -/
def sortLe {α : Type} (le : α → α → Bool) : List α → List α
  | [] => []
  | x :: xs => insertLe le x (sortLe le xs)

/-- The first signature in the set whose `InputIndex` equals `i`, or the nil
slice — the `for … break` lookup loops of `Multisign` (wallet.go lines
685-698). -/
def findSig (sigs : List SignatureRec) (i : Nat) : List Nat :=
  match sigs.find? (fun s => s.inputIndex == i) with
  | some s => s.signature
  | none => []

/-- The witness stack `Multisign` attaches to input `i` (wallet.go lines
700-706): `[<empty>, sig1, sig2]`, then `[0x01]` when time-locked, then the
redeem script. -/
def multisignWitness (timeLocked : Bool) (sigs1 sigs2 : List SignatureRec)
    (redeemScript : List Nat) (i : Nat) : List (List Nat) :=
  let w : List (List Nat) := [[], findSig sigs1 i, findSig sigs2 i]
  let w := if timeLocked then w ++ [[0x01]] else w
  w ++ [redeemScript]

/-- The witness-attaching loop `for i, input := range tx.TxIn` of `Multisign`
(wallet.go lines 684-707), position-indexed from `i`. -/
def attachWitnesses (timeLocked : Bool) (sigs1 sigs2 : List SignatureRec)
    (redeemScript : List Nat) : List TxInM → Nat → List TxInM
  | [], _ => []
  | t :: ts, i =>
    { t with witness := multisignWitness timeLocked sigs1 sigs2 redeemScript i } ::
      attachWitnesses timeLocked sigs1 sigs2 redeemScript ts (i + 1)

/-- The input-building loop shared by `CreateMultisigSignature` and
`Multisign` (wallet.go lines 646-654): each `wallet.TransactionInput`
becomes a `wire.TxIn` with empty signature script and witness and the
default sequence `0xffffffff`, failing on an over-long outpoint hash. -/
def buildTxIns : List TransactionInput → Except String (List TxInM)
  | [] => Except.ok []
  | i :: rest =>
    match hashFromOutpointBytes i.outpointHash with
    | none => Except.error "max hash string length exceeded"
    | some h =>
      match buildTxIns rest with
      | Except.error e => Except.error e
      | Except.ok tl =>
        Except.ok ({ prevHash := h, prevIndex := i.outpointIndex,
                     sequence := 0xffffffff, signatureScript := [],
                     witness := [] } :: tl)

/-- The fee subtraction shared by `CreateMultisigSignature` and `Multisign`
(wallet.go lines 660-673): estimate the size under the 2-of-3 variant
(time-locked when the redeem script parses as such), spread
`fee / len(outputs)` evenly by subtracting it from every output. -/
def subtractMultisigFee (numIns : Nat) (txOut : List TxOutM)
    (redeemScript : List Nat) (feePerByte : Nat) : List TxOutM :=
  let txType :=
    match LockTimeFromRedeemScript redeemScript with
    | Except.ok _ => InputType.P2SH_Multisig_Timelock_2Sigs
    | Except.error _ => InputType.P2SH_2of3_Multisig
  let estimatedSize := EstimateSerializeSize numIns txOut txType
  let fee := estimatedSize * feePerByte
  if txOut.length = 0 then txOut
  else
    let feePerOutput := fee / txOut.length
    txOut.map (fun o => { o with value := o.value - (feePerOutput : Int) })

/-- `Multisign(ins, outs, sigs1, sigs2, redeemScript, feePerByte, broadcast)`
(wallet.go lines 644-718).  `none` models the runtime panic of
`redeemScript[0]` on an empty script; `some (.error e)` an error return;
`some (.ok tx)` a normal return of the serialized transaction, here as the
transaction itself.  `broadcastFails` stands in for the external
`SendRawTransaction` RPC outcome (only consulted when `broadcast`). -/
def Multisign (ins : List TransactionInput) (outs : List TransactionOutput)
    (sigs1 sigs2 : List SignatureRec) (redeemScript : List Nat)
    (feePerByte : Nat) (broadcast : Bool) (broadcastFails : Bool) :
    Option (Except String MsgTxM) :=
  match buildTxIns ins with
  | Except.error e => some (Except.error e)
  | Except.ok txIn0 =>
    let txOut0 := outs.map (fun o => TxOutM.mk o.value o.scriptPubKey)
    let txOut1 := subtractMultisigFee ins.length txOut0 redeemScript feePerByte
    -- BIP 69 sorting
    let txIn1 := sortLe txInLe txIn0
    let txOut2 := sortLe txOutLe txOut1
    -- `redeemScript[0]`: panics on the empty script
    match redeemScript.head? with
    | none => none
    | some b0 =>
      let timeLocked := b0 = OP_IF
      let txIn2 := attachWitnesses timeLocked sigs1 sigs2 redeemScript txIn1 0
      let tx : MsgTxM := { version := 1, txIn := txIn2, txOut := txOut2, lockTime := 0 }
      if broadcast ∧ broadcastFails then some (Except.error "broadcast failed")
      else some (Except.ok tx)

/-- `wallet.Utxo` as consumed by `SweepAddress` (the outpoint is already a
parsed `wire.OutPoint`; hash in display order as above). -/
structure UtxoM where
  opHash : List Nat
  opIndex : Nat
  value : Int
  scriptPubkey : List Nat
  deriving Repr, DecidableEq

/-- A `btc.Address` as `SweepAddress` consumes it: the only observation the
function makes is `txscript.PayToAddrScript` (external library), so the
address is modelled by that pay script. -/
structure AddrM where
  payScript : List Nat
  deriving Repr, DecidableEq

/-- `SweepAddress(utxos, address, key, redeemScript, feeLevel)` (wallet.go
lines 721-850).  External collaborators become parameters: `currentAddr` is
the RPC-backed `CurrentAddress(INTERNAL)` used when `address` is nil,
`feeState` backs `GetFeePerByte`, `witnessSig i` and `legacySig i` stand for
the ECDSA signatures the external `txscript` signers produce for input `i`
(signing succeeds for the keys this wallet uses), and `broadcastFails` for
the `SendRawTransaction` outcome.  `none` models the `rs[0]` panic on an
empty (non-nil) redeem script; a normal return yields the broadcast
transaction (whose hash is the returned txid). -/
def SweepAddress (utxos : List UtxoM) (address : Option AddrM)
    (redeemScript : Option (List Nat)) (feeLevel : FeeLevel)
    (currentAddr : AddrM) (feeState : EstimateFeeState)
    (witnessSig legacySig : Nat → List Nat) (broadcastFails : Bool) :
    Option (Except String MsgTxM) :=
  let internalAddr := address.getD currentAddr
  let script := internalAddr.payScript
  let val : Int := (utxos.map (fun u => u.value)).sum
  let inputs : List TxInM := utxos.map (fun u =>
    { prevHash := u.opHash, prevIndex := u.opIndex, sequence := 0xffffffff,
      signatureScript := [], witness := [] })
  let txType :=
    match redeemScript with
    | none => InputType.P2PKH
    | some rs =>
      match LockTimeFromRedeemScript rs with
      | Except.ok _ => InputType.P2SH_Multisig_Timelock_1Sig
      | Except.error _ => InputType.P2SH_1of2_Multisig
  let out0 : TxOutM := { value := val, scriptPubKey := script }
  let estimatedSize := EstimateSerializeSize utxos.length [out0] txType
  let feePerByte := GetFeePerByte feeState feeLevel
  let fee : Int := (estimatedSize * feePerByte : Nat)
  let outVal := if val - fee < 0 then 0 else val - fee
  let out : TxOutM := { out0 with value := outVal }
  let txIn1 := sortLe txInLe inputs
  -- Check if time locked: `rs[0]` panics on an empty redeem script
  match redeemScript with
  | some [] => none
  | some (b0 :: rsRest) =>
    let rs := b0 :: rsRest
    let timeLocked := b0 = OP_IF
    let version := if timeLocked then 2 else 1
    let seqResult : Except String (List TxInM) :=
      match txIn1 with
      | [] => Except.ok []
      | _ =>
        match LockTimeFromRedeemScript rs with
        | Except.error e => Except.error e
        | Except.ok locktime =>
          Except.ok (txIn1.map (fun t => { t with sequence := locktime }))
    match seqResult with
    | Except.error e => some (Except.error e)
    | Except.ok txIn2 =>
      let txIn3 := sweepWitnesses timeLocked rs witnessSig txIn2 0
      let tx : MsgTxM := { version := version, txIn := txIn3, txOut := [out], lockTime := 0 }
      if broadcastFails then some (Except.error "broadcast failed")
      else some (Except.ok tx)
  | none =>
    let txIn2 := legacySignAll legacySig txIn1 0
    let tx : MsgTxM := { version := 1, txIn := txIn2, txOut := [out], lockTime := 0 }
    if broadcastFails then some (Except.error "broadcast failed")
    else some (Except.ok tx)
where
  /-- Witness assembly of the redeem-script branch (wallet.go lines 828-839):
  `[sig, <empty>]` on the time-locked (ELSE) path, `[<empty>, sig]`
  otherwise, then the redeem script. -/
  sweepWitnesses (timeLocked : Bool) (rs : List Nat) (witnessSig : Nat → List Nat) :
      List TxInM → Nat → List TxInM
    | [], _ => []
    | t :: ts, i =>
      let sig := witnessSig i
      let w := if timeLocked then [sig, ([] : List Nat)] else [([] : List Nat), sig]
      { t with witness := w ++ [rs] } ::
        sweepWitnesses timeLocked rs witnessSig ts (i + 1)
  /-- Legacy signing loop (wallet.go lines 818-826): `SignTxOutput` fills the
  signature script of each input. -/
  legacySignAll (legacySig : Nat → List Nat) : List TxInM → Nat → List TxInM
    | [], _ => []
    | t :: ts, i =>
      { t with signatureScript := legacySig i } :: legacySignAll legacySig ts (i + 1)

/-! ## `OpenBazaarService.handleNewMessage` (src/unnamed/part_001, lines 60-110)

The inbound-stream loop, modelled as a function of the observable inputs:
whether the ban manager reports the remote peer banned, the handler
dispatch table, and the sequence of read outcomes the stream will deliver
(`none` = `ReadMsg` error, e.g. reset or EOF).  The result records what the
service did to the stream and how far it got.  Writes of replies are taken
to succeed (a write error would only end the loop one message later; no
claim turns on it). -/

/-- A wire `pb.Message`: its `MessageType` tag and opaque payload. -/
structure PMes where
  messageType : Nat
  payload : List Nat
  deriving Repr, DecidableEq

/-- A handler from the dispatch table: consumes the peer's message, returns
an error, no reply, or a reply message. -/
def HandlerFn : Type := PMes → Except String (Option PMes)

/-- What `handleNewMessage` observably did. -/
structure HandleResult where
  /-- Was `s.Close()` ever run (the `defer` registered at part_001 line 73)? -/
  streamClosed : Bool
  /-- Was the stream bound into the peer's message sender (line 72)? -/
  senderBound : Bool
  /-- How many messages were read off the stream. -/
  messagesRead : Nat
  /-- The message types dispatched to handlers, in order. -/
  dispatched : List Nat
  /-- The replies written back, in order. -/
  replies : List PMes
  deriving Repr, DecidableEq

/-- The `for { … }` read/dispatch loop (part_001 lines 75-109). -/
def handleLoop (handlers : Nat → Option HandlerFn) :
    List (Option PMes) → Nat → List Nat → List PMes → Nat × List Nat × List PMes
  | [], nRead, disp, reps => (nRead, disp.reverse, reps.reverse)
  | none :: _, nRead, disp, reps =>
    -- ReadMsg error: "Error unmarshaling data", return
    (nRead, disp.reverse, reps.reverse)
  | some pmes :: rest, nRead, disp, reps =>
    match handlers pmes.messageType with
    | none =>
      -- nil handler from handlerForMsgType, return
      (nRead + 1, disp.reverse, reps.reverse)
    | some handler =>
      match handler pmes with
      | Except.error _ =>
        -- handle message error, return
        (nRead + 1, (pmes.messageType :: disp).reverse, reps.reverse)
      | Except.ok none =>
        -- nil response, continue
        handleLoop handlers rest (nRead + 1) (pmes.messageType :: disp) reps
      | Except.ok (some rpmes) =>
        handleLoop handlers rest (nRead + 1) (pmes.messageType :: disp) (rpmes :: reps)

/-- `handleNewMessage(s)` (part_001 lines 60-110).  The ban check happens
before `defer s.Close()` is registered and before the stream is bound into
the message sender, so the banned path returns with the stream left open. -/
def handleNewMessage (banned : Bool) (handlers : Nat → Option HandlerFn)
    (incoming : List (Option PMes)) : HandleResult :=
  if banned then
    { streamClosed := false, senderBound := false, messagesRead := 0,
      dispatched := [], replies := [] }
  else
    let (nRead, disp, reps) := handleLoop handlers incoming 0 [] []
    { streamClosed := true, senderBound := true, messagesRead := nRead,
      dispatched := disp, replies := reps }

/-! ## Supporting lemmas -/

theorem cacheLookup_cacheInsert (c : Cache) (k : String) (v : ℚ) :
    cacheLookup (cacheInsert c k v) k = some v := by
  induction c with
  | nil => simp [cacheInsert, cacheLookup, mapLookup]
  | cons hd tl ih =>
    obtain ⟨k', v'⟩ := hd
    by_cases h : k' = k
    · simp [cacheInsert, cacheLookup, mapLookup, h]
    · simpa [cacheInsert, cacheLookup, mapLookup, h] using ih

theorem fsRead_fsWrite (fs : Fs) (n c : String) :
    fsRead (fsWrite fs n c) n = some c := by
  induction fs with
  | nil => simp [fsWrite, fsRead, mapLookup]
  | cons hd tl ih =>
    obtain ⟨n', c'⟩ := hd
    by_cases h : n' = n
    · simp [fsWrite, fsRead, mapLookup, h]
    · simpa [fsWrite, fsRead, mapLookup, h] using ih

theorem truncQ_nonneg_eq_floor (q : ℚ) (h : 0 ≤ q) : truncQ q = ⌊q⌋ := by
  simp [truncQ, h]

/-! ## Claims -/

/-- The `estimatefee` oracle state answering `100000` (sat/KB) at every
block target. -/
def feeState100k : EstimateFeeState := fun _ => some "100000"

/-- **C3, counterexample.**  With the daemon answering `estimatefee = 100000`,
`GetFeePerByte(PRIORITY)` is 100, so `PRIORITY + 1 = 101`; but
`GetFeePerByte(FEE_BUMP)` is 50: the bump level is NOT treated as
PRIORITY + 1 sat/byte. -/
theorem getFeePerByte_bump_cex :
    GetFeePerByte feeState100k FeeLevel.FEE_BUMP = 50 ∧
    GetFeePerByte feeState100k FeeLevel.PRIORITY + 1 = 101 ∧
    (50 : Nat) ≠ 101 := by
  refine ⟨rfl, rfl, by decide⟩

/-- **C3, amended.**  `GetFeePerByte(FEE_BUMP)` falls into the `default:`
case of the fee-level switch (wallet.go lines 519-528) and returns the
default 50 sat/byte for every oracle state, never consulting `estimatefee`
and never adding 1 to the PRIORITY fee. -/
theorem getFeePerByte_bump_is_default (st : EstimateFeeState) :
    GetFeePerByte st FeeLevel.FEE_BUMP = 50 := rfl

/-- **C5.**  `CMCDecoder.decode` on the decoded empty array `[]` returns the
error `could not get currency` with the cache exactly as it was; on the
sample CoinMarketCap payload (first element carrying
`"price_usd": "0.542017"`) it returns nil error and the cache afterwards
maps `"PHR"` to 0.542017 — for every starting cache `c`. -/
theorem cmcDecode_empty_and_sample (c : Cache) :
    CMCDecoder.decode (GoJson.arr []) c =
      some (Except.error "could not get currency", c) ∧
    CMCDecoder.decode samplePayload c =
      some (Except.ok (), cacheInsert c "PHR" (542017 / 1000000 : ℚ)) ∧
    cacheLookup (cacheInsert c "PHR" (542017 / 1000000 : ℚ)) "PHR" =
      some (542017 / 1000000 : ℚ) := by
  refine ⟨rfl, ?_, cacheLookup_cacheInsert c "PHR" _⟩
  have h : "0.542017".toList = ['0', '.', '5', '4', '2', '0', '1', '7'] := by
    decide
  have hq : goParseFloat "0.542017" = some (542017 / 1000000 : ℚ) := by
    simp [goParseFloat, h, goParseFloat.splitDot, parseDigits, parseDigits.go,
      digitVal, goParseFloat.signed]
    norm_num
  simp +decide [CMCDecoder.decode, samplePayload, mapLookup, hq]

/-- **C5, witness.**  The theorem instantiated at the empty cache. -/
theorem cmcDecode_empty_and_sample_witness :
    CMCDecoder.decode (GoJson.arr []) [] =
      some (Except.error "could not get currency", []) ∧
    CMCDecoder.decode samplePayload [] =
      some (Except.ok (), cacheInsert [] "PHR" (542017 / 1000000 : ℚ)) ∧
    cacheLookup (cacheInsert [] "PHR" (542017 / 1000000 : ℚ)) "PHR" =
      some (542017 / 1000000 : ℚ) :=
  cmcDecode_empty_and_sample []

/-- **C8.**  `CMCDecoder.decode` is not total: the unchecked type assertions
`dat.([]interface{})` and `data[0].(map[string]interface{})` panic (`none`)
on a top-level JSON object and on a non-empty array whose first element is
not an object — neither an error nor a result is returned. -/
theorem cmcDecode_panics :
    CMCDecoder.decode (GoJson.obj []) [] = none ∧
    CMCDecoder.decode (GoJson.arr [GoJson.str "x"]) [] = none :=
  ⟨rfl, rfl⟩

/-- **C4, counterexample.**  The preshared-key blob `migration005.Up` writes
to `swarm.key` (`swarmKeyData`, part_000 line 39) is 95 bytes long, not 92:
after `Up` on the empty directory, `swarm.key` holds those 95 bytes. -/
theorem migration005_blob_cex :
    fsRead (migration005Up fsEnvOk []).2 "swarm.key" = some swarmKeyData ∧
    swarmKeyData.length = 95 ∧ ¬(swarmKeyData.length = 92) := by
  refine ⟨rfl, rfl, by decide⟩

/-- **C4, amended.**  `migration005.Up` on an empty repository directory
succeeds, leaving `repover` containing exactly the byte `'6'` and
`swarm.key` containing exactly the fixed 95-byte preshared-key blob;
`migration005.Down` run afterwards succeeds, removes `swarm.key` and leaves
`repover` containing exactly the byte `'5'`. -/
theorem migration005_up_down :
    (migration005Up fsEnvOk []).1 = Except.ok (migration005Up fsEnvOk []).2 ∧
    fsRead (migration005Up fsEnvOk []).2 "repover" = some "6" ∧
    fsRead (migration005Up fsEnvOk []).2 "swarm.key" = some swarmKeyData ∧
    swarmKeyData.length = 95 ∧
    (migration005Down fsEnvOk (migration005Up fsEnvOk []).2).1 =
      Except.ok (migration005Down fsEnvOk (migration005Up fsEnvOk []).2).2 ∧
    fsRead (migration005Down fsEnvOk (migration005Up fsEnvOk []).2).2 "swarm.key"
      = none ∧
    fsRead (migration005Down fsEnvOk (migration005Up fsEnvOk []).2).2 "repover"
      = some "5" := by
  refine ⟨rfl, rfl, rfl, rfl, rfl, rfl, rfl⟩

/-- The I/O environment in which the `swarm.key` write fails. -/
def envSwarmFail : FsEnv := { fsEnvOk with writeSwarmFails := true }

/-- **C9.**  `migration005.Up` is not atomic: `os.Create` truncates `repover`
before `swarm.key` is written, so when the `swarm.key` write fails, `Up`
returns an error with `repover` already truncated to empty — a pre-existing
version byte `'5'` is destroyed. -/
theorem migration005Up_not_atomic (fs : Fs) (h : fsRead fs "repover" = some "5") :
    (∃ e, (migration005Up envSwarmFail fs).1 = Except.error e) ∧
    fsRead (migration005Up envSwarmFail fs).2 "repover" = some "" ∧
    fsRead (migration005Up envSwarmFail fs).2 "repover" ≠ fsRead fs "repover" := by
  have hw : fsRead (migration005Up envSwarmFail fs).2 "repover" = some "" := by
    simpa [migration005Up, envSwarmFail, fsEnvOk] using fsRead_fsWrite fs "repover" ""
  refine ⟨⟨"write swarm.key failed", rfl⟩, hw, ?_⟩
  rw [hw, h]
  simp

/-- **C9, witness.**  Instantiated at the one-file repository
`repover ↦ "5"`. -/
theorem migration005Up_not_atomic_witness :
    (∃ e, (migration005Up envSwarmFail [("repover", "5")]).1 = Except.error e) ∧
    fsRead (migration005Up envSwarmFail [("repover", "5")]).2 "repover" = some "" ∧
    fsRead (migration005Up envSwarmFail [("repover", "5")]).2 "repover" ≠
      fsRead [("repover", "5")] "repover" :=
  migration005Up_not_atomic [("repover", "5")] rfl

/-- **C6, counterexample.**  At an unspent amount of 0.5 coin,
`EstimateSpendFee`'s input accumulation (wallet.go line 579) yields
`int64(0.5 * 100000000) = 50000000` base units — it multiplies; the
claimed expression `int64(u.Amount / 100000000)` would yield 0.  The
division lives in `BumpFee` (line 492), not in `EstimateSpendFee`. -/
theorem estimateSpendFee_multiplies_cex :
    estimateSpendFeeInval [(1 / 2 : ℚ)] = 50000000 ∧
    bumpFeeUtxoValue (1 / 2 : ℚ) = 0 ∧
    (50000000 : Int) ≠ 0 := by
  refine ⟨?_, ?_, by norm_num⟩
  · simp only [estimateSpendFeeInval, List.foldl]
    rw [truncQ_nonneg_eq_floor _ (by norm_num)]
    norm_num
  · rw [bumpFeeUtxoValue, truncQ_nonneg_eq_floor _ (by norm_num)]
    norm_num

/-- **C6, amended.**  The divide-instead-of-multiply slip is in `BumpFee`,
not `EstimateSpendFee`: the UTXO `BumpFee` hands to `SweepAddress` carries
`Value: int64(u.Amount / 100000000)`, which is 0 for every daemon-reported
amount below 10^8 coins (all precision lost), while `EstimateSpendFee`
accumulates `int64(u.Amount * 100000000)`, the correct base-unit
conversion. -/
theorem bumpFee_divides_estimateSpendFee_multiplies (a : ℚ)
    (h0 : 0 ≤ a) (h1 : a < 100000000) :
    bumpFeeUtxoValue a = 0 ∧
    estimateSpendFeeInval [a] = truncQ (a * 100000000) := by
  constructor
  · have hnn : (0 : ℚ) ≤ a / 100000000 := by positivity
    have hlt : a / 100000000 < 1 := by
      rw [div_lt_one (by norm_num)]
      exact h1
    rw [bumpFeeUtxoValue, truncQ_nonneg_eq_floor _ hnn]
    exact Int.floor_eq_zero_iff.mpr ⟨hnn, hlt⟩
  · simp [estimateSpendFeeInval]

/-- **C6, witness.**  The amended theorem at 0.5 coin: `BumpFee`'s value is
0 while `EstimateSpendFee` accumulates 50000000 base units. -/
theorem bumpFee_divides_witness :
    (0 : ℚ) ≤ 1 / 2 ∧ (1 / 2 : ℚ) < 100000000 ∧
    (bumpFeeUtxoValue (1 / 2 : ℚ) = 0 ∧
     estimateSpendFeeInval [(1 / 2 : ℚ)] = truncQ ((1 / 2 : ℚ) * 100000000)) :=
  ⟨by norm_num, by norm_num,
    bumpFee_divides_estimateSpendFee_multiplies (1 / 2) (by norm_num) (by norm_num)⟩

/-- A sample 33-byte compressed public key. -/
def keyA : PubKeyC := ⟨List.replicate 33 2⟩

/-- The 1-of-1 plain multisig redeem script over `keyA`:
`OP_1 <push 33> <keyA> OP_1 OP_CHECKMULTISIG`. -/
def msScriptA : List Nat := [0x51, 33] ++ List.replicate 33 2 ++ [0x51, 0xae]

/-- **C2, counterexample.**  A strictly positive timeout of 30 minutes
(1 800 000 000 000 ns) truncates to zero whole hours, so
`GenerateMultisigScript` with a nil timeout key takes the plain-multisig
branch and SUCCEEDS, producing an address and a redeem script — no
missing-timeout-key error. -/
theorem generateMultisig_subhour_nil_key_cex :
    (0 : Nat) < 1800000000000 ∧
    GenerateMultisigScript [keyA] 1 1800000000000 none =
      Except.ok (⟨msScriptA⟩, msScriptA) := by
  exact ⟨by norm_num, rfl⟩

/-- **C2, amended.**  The guard is `uint32(timeout.Hours()) > 0`, so the
missing-timeout-key error fires exactly when the timeout reaches one whole
hour: for every key list, threshold, and timeout of at least one hour
(3 600 000 000 000 ns), a nil timeout key makes `GenerateMultisigScript`
return the missing-timeout-key error, hence no address and no redeem
script.  (Timeouts strictly between zero and one hour truncate to zero and
take the plain branch, see the counterexample.) -/
theorem generateMultisig_missing_timeout_key (keys : List PubKeyC)
    (threshold : Int) (timeoutNs : Nat) (h : 3600000000000 ≤ timeoutNs) :
    GenerateMultisigScript keys threshold timeoutNs none =
      Except.error "Timeout key must be non nil when using an escrow timeout" := by
  have hpos : 0 < timeoutNs / 3600000000000 := Nat.div_pos h (by norm_num)
  simp [GenerateMultisigScript, hpos]

/-- **C2, witness.**  The amended theorem at a 24-hour timeout. -/
theorem generateMultisig_missing_timeout_key_witness :
    (3600000000000 : Nat) ≤ 86400000000000 ∧
    GenerateMultisigScript [keyA] 1 86400000000000 none =
      Except.error "Timeout key must be non nil when using an escrow timeout" :=
  ⟨by norm_num, generateMultisig_missing_timeout_key [keyA] 1 86400000000000 (by norm_num)⟩

/-- **C7, counterexample.**  An inbound stream from a banned peer: the
service returns without running `s.Close()` — `defer s.Close()` (part_001
line 73) is only registered AFTER the ban check returns, so the stream is
left open, contradicting "closes that stream immediately". -/
theorem handleNewMessage_banned_cex :
    (handleNewMessage true (fun _ => none) []).streamClosed = false ∧
    (handleNewMessage true (fun _ => none) []).messagesRead = 0 ∧
    (handleNewMessage true (fun _ => none) []).dispatched = [] :=
  ⟨rfl, rfl, rfl⟩

/-- **C7, amended.**  When the ban manager reports the remote peer banned,
`handleNewMessage` returns immediately — no message is read, no handler
dispatched, no reply written, and the stream is not bound into the message
sender — but it does NOT close the stream: the `defer s.Close()` is
registered only after the ban check, so the banned path leaves the stream
open. -/
theorem handleNewMessage_banned (handlers : Nat → Option HandlerFn)
    (incoming : List (Option PMes)) :
    handleNewMessage true handlers incoming =
      { streamClosed := false, senderBound := false, messagesRead := 0,
        dispatched := [], replies := [] } := rfl

theorem attachWitnesses_length (tl : Bool) (s1 s2 : List SignatureRec)
    (rs : List Nat) (l : List TxInM) (i0 : Nat) :
    (attachWitnesses tl s1 s2 rs l i0).length = l.length := by
  induction l generalizing i0 with
  | nil => rfl
  | cons hd t ih => simp [attachWitnesses, ih]

theorem attachWitnesses_get (tl : Bool) (s1 s2 : List SignatureRec)
    (rs : List Nat) (l : List TxInM) (i0 i : Nat)
    (h : i < (attachWitnesses tl s1 s2 rs l i0).length) :
    ((attachWitnesses tl s1 s2 rs l i0).get ⟨i, h⟩).witness =
      multisignWitness tl s1 s2 rs (i0 + i) := by
  induction l generalizing i0 i with
  | nil => simp [attachWitnesses] at h
  | cons hd t ih =>
    cases i with
    | zero => simp [attachWitnesses]
    | succ j =>
      have h' : j < (attachWitnesses tl s1 s2 rs t (i0 + 1)).length := by
        have := h
        simp [attachWitnesses] at this
        simpa [attachWitnesses_length] using this
      have := ih (i0 + 1) j h'
      simpa [attachWitnesses, Nat.add_assoc, Nat.add_comm, Nat.add_left_comm]
        using this

theorem buildTxIns_ok (ins : List TransactionInput)
    (h : ∀ i ∈ ins, i.outpointHash.length ≤ 32) :
    ∃ l, buildTxIns ins = Except.ok l := by
  induction ins with
  | nil => exact ⟨[], rfl⟩
  | cons hd t ih =>
    have hh : hd.outpointHash.length ≤ 32 := h hd (by simp)
    obtain ⟨l, hl⟩ := ih (fun i hi => h i (by simp [hi]))
    refine ⟨{ prevHash := List.replicate (32 - hd.outpointHash.length) 0 ++
                hd.outpointHash,
              prevIndex := hd.outpointIndex, sequence := 0xffffffff,
              signatureScript := [], witness := [] } :: l, ?_⟩
    simp [buildTxIns, hashFromOutpointBytes, hh, hl]

/-- **C1.**  Every transaction `Multisign` assembles carries, on the input at
each position `i`, exactly the witness stack
`[<empty>, sig1, sig2, redeemScript]` when the redeem script does not begin
with `OP_IF`, and exactly `[<empty>, sig1, sig2, 0x01, redeemScript]` when
it does (time-locked), where `sig1` and `sig2` are the signatures of the two
sets whose `InputIndex` matches `i` (`findSig`). -/
theorem multisign_witness_stack
    (ins : List TransactionInput) (outs : List TransactionOutput)
    (sigs1 sigs2 : List SignatureRec) (rs : List Nat) (fpb : Nat)
    (bc bf : Bool) (tx : MsgTxM)
    (hok : Multisign ins outs sigs1 sigs2 rs fpb bc bf = some (Except.ok tx))
    (i : Nat) (hi : i < tx.txIn.length) :
    (rs.head? ≠ some OP_IF →
      (tx.txIn.get ⟨i, hi⟩).witness =
        [[], findSig sigs1 i, findSig sigs2 i, rs]) ∧
    (rs.head? = some OP_IF →
      (tx.txIn.get ⟨i, hi⟩).witness =
        [[], findSig sigs1 i, findSig sigs2 i, [0x01], rs]) := by
  cases hb : buildTxIns ins with
  | error e =>
    rw [Multisign, hb] at hok
    simp at hok
  | ok txIn0 =>
    rw [Multisign, hb] at hok
    cases rs with
    | nil => simp at hok
    | cons b0 rest =>
      by_cases hbb : bc = true ∧ bf = true
      · simp [hbb] at hok
      · simp only [List.head?, hbb, if_false, Option.some.injEq,
          eq_self_iff_true, if_neg hbb] at hok
        cases hok with
        | refl =>
          constructor
          · intro hne
            have hb0 : ¬(b0 = OP_IF) := fun hc => hne (by simp [hc])
            have := attachWitnesses_get (decide (b0 = OP_IF)) sigs1 sigs2
              (b0 :: rest) _ 0 i hi
            simpa [multisignWitness, hb0] using this
          · intro heq
            have hb0 : b0 = OP_IF := by simpa using heq
            have := attachWitnesses_get (decide (b0 = OP_IF)) sigs1 sigs2
              (b0 :: rest) _ 0 i hi
            simpa [multisignWitness, hb0] using this

/-- The transaction `Multisign` builds in the witness scenario below. -/
def txC1 : MsgTxM :=
  { version := 1,
    txIn := [{ prevHash := List.replicate 31 0 ++ [1], prevIndex := 0,
               sequence := 4294967295, signatureScript := [],
               witness := [[], [0xaa], [0xbb], [0x52]] }],
    txOut := [{ value := 100000, scriptPubKey := [0x51] }],
    lockTime := 0 }

/-- **C1, witness.**  A one-input, one-output `Multisign` run over the
(non-time-locked) redeem script `[OP_2]` with one signature from each set:
the input's witness stack is `[<empty>, sig1, sig2, redeemScript]`. -/
theorem multisign_witness_stack_witness :
    Multisign [⟨[1], 0, 0⟩] [⟨100000, [0x51]⟩] [⟨0, [0xaa]⟩] [⟨0, [0xbb]⟩]
        [0x52] 0 false false = some (Except.ok txC1) ∧
    (txC1.txIn.get ⟨0, by decide⟩).witness =
      [[], findSig [⟨0, [0xaa]⟩] 0, findSig [⟨0, [0xbb]⟩] 0, [0x52]] := by
  have hok : Multisign [⟨[1], 0, 0⟩] [⟨100000, [0x51]⟩] [⟨0, [0xaa]⟩]
      [⟨0, [0xbb]⟩] [0x52] 0 false false = some (Except.ok txC1) := rfl
  exact ⟨hok,
    (multisign_witness_stack [⟨[1], 0, 0⟩] [⟨100000, [0x51]⟩] [⟨0, [0xaa]⟩]
      [⟨0, [0xbb]⟩] [0x52] 0 false false txC1 hok 0 (by decide)).1 (by decide)⟩

/-- **C10.**  Both `Multisign` (wallet.go line 680) and `SweepAddress`
(line 803) read `redeemScript[0]` with no length check: on an empty redeem
script neither returns an error — the index is out of range (a runtime
panic, `none`): the operations are not total.  (For `Multisign` the inputs'
outpoint hashes must be within the 32 bytes `NewHashFromStr` accepts, since
that error return precedes the panic.) -/
theorem emptyRedeemScript_not_total :
    (∀ (ins : List TransactionInput) (outs : List TransactionOutput)
       (sigs1 sigs2 : List SignatureRec) (fpb : Nat) (bc bf : Bool),
       (∀ i ∈ ins, i.outpointHash.length ≤ 32) →
       Multisign ins outs sigs1 sigs2 [] fpb bc bf = none) ∧
    (∀ (utxos : List UtxoM) (address : Option AddrM) (fl : FeeLevel)
       (ca : AddrM) (st : EstimateFeeState) (ws ls : Nat → List Nat)
       (bf : Bool),
       SweepAddress utxos address (some []) fl ca st ws ls bf = none) := by
  constructor
  · intro ins outs s1 s2 fpb bc bf h
    obtain ⟨l, hl⟩ := buildTxIns_ok ins h
    simp [Multisign, hl]
  · intro utxos address fl ca st ws ls bf
    rfl

/-- **C10, witness.**  The theorem at a concrete one-input `Multisign` call
and a concrete `SweepAddress` call, both with the empty redeem script. -/
theorem emptyRedeemScript_not_total_witness :
    Multisign [⟨[1], 0, 0⟩] [] [] [] [] 0 false false = none ∧
    SweepAddress [] none (some []) FeeLevel.NORMAL ⟨[]⟩ (fun _ => none)
      (fun _ => []) (fun _ => []) false = none :=
  ⟨emptyRedeemScript_not_total.1 [⟨[1], 0, 0⟩] [] [] [] 0 false false
      (by simp),
   emptyRedeemScript_not_total.2 [] none FeeLevel.NORMAL ⟨[]⟩ (fun _ => none)
      (fun _ => []) (fun _ => []) false⟩

end OBGo
